import Mathlib

/-!
# Verification of the WikiChecker entity resolution engine

Shallow embedding of `src/fetcher.py`.  Python strings are modelled as Lean
`String` (a list of unicode characters), Python `None` as `Option.none`,
Python exceptions as `Except Unit`, and the external collaborators (the
OpenAI completion client, the Wikipedia HTTP search, and document fetching)
as oracle function parameters.  BeautifulSoup documents are modelled by the
`Soup` structure, which records exactly the queries the program performs on
a parsed document (infobox rows, all outbound links, the first-heading
title, the plain text, the paragraph texts).

Python `str.lower`/`str.upper` are modelled with Lean's ASCII
`Char.toLower`/`Char.toUpper`, and `str.strip` with Lean's
`Char.isWhitespace`; the embedded programs only ever make decisions on
ASCII characters.
-/

namespace WikiChecker

/-- Python truthiness of an optional string: `None` and `""` are falsy. -/
def truthyOpt : Option String → Bool
  | none => false
  | some s => s ≠ ""

/-- `str.lower()` (ASCII case mapping). -/
def pyLower (s : String) : String := ⟨s.data.map Char.toLower⟩

/-- Characters stripped by Python `str.strip()`. -/
def isSpc (c : Char) : Bool := c.isWhitespace

/-- `str.strip()` on the character list: drop whitespace from both ends. -/
def pyStripL (l : List Char) : List Char :=
  ((l.dropWhile isSpc).reverse.dropWhile isSpc).reverse

/-- `str.strip()`. -/
def pyStrip (s : String) : String := ⟨pyStripL s.data⟩

/-- `needle in hay` for Python strings: contiguous substring test. -/
def infixOfAux (needle : List Char) : List Char → Bool
  | [] => needle.isPrefixOf []
  | c :: t => needle.isPrefixOf (c :: t) || infixOfAux needle t

/-- Python `needle in hay` (substring membership). -/
def pyIn (needle hay : String) : Bool := infixOfAux needle.data hay.data

/-- Python `s.startswith(p)`. -/
def pyStartsWith (s p : String) : Bool := p.data.isPrefixOf s.data

/-- Python `s.endswith(p)`. -/
def pyEndsWith (s p : String) : Bool := p.data.isSuffixOf s.data

/-- `s.split(c)[0]` for a one-character separator: the prefix of `s` before
the first occurrence of `c` (the whole string when `c` does not occur). -/
def pySplitFirst (c : Char) (s : String) : String := ⟨s.data.takeWhile (· ≠ c)⟩

/-- `s.split(c)` for a one-character separator, with Python semantics
(empty fields are kept). -/
def pySplitCharAux (c : Char) (acc : List Char) : List Char → List String
  | [] => [⟨acc.reverse⟩]
  | x :: t =>
    if x = c then ⟨acc.reverse⟩ :: pySplitCharAux c [] t
    else pySplitCharAux c (x :: acc) t

/-- Python `s.split(c)` for a one-character separator. -/
def pySplitChar (c : Char) (s : String) : List String := pySplitCharAux c [] s.data

/-- `s.split()` with no argument: split on whitespace runs, no empty
fields.  `fuel` bounds the recursion (each step consumes at least one
character), initialised to the length of the list. -/
def pySplitWsAux : Nat → List Char → List String
  | 0, _ => []
  | _, [] => []
  | fuel + 1, c :: t =>
    if isSpc c then pySplitWsAux fuel t
    else
      let w := (c :: t).takeWhile (fun x => ¬ isSpc x)
      ⟨w⟩ :: pySplitWsAux fuel ((c :: t).drop w.length)

/-- Python `s.split()` (whitespace split). -/
def pySplitWs (s : String) : List String := pySplitWsAux s.data.length s.data

/-- The common idiom `[x.strip() for x in s.split(',') if x.strip()]`. -/
def splitCommaTrim (s : String) : List String :=
  (pySplitChar ',' s).filterMap fun n =>
    let t := pyStrip n
    if t = "" then none else some t

/-- One scanning step of Python `s.replace(old, new)` (left-to-right,
non-overlapping).  `fuel` bounds the recursion; it is initialised to the
length of the scanned list, which suffices because every step consumes at
least one character.  The program only calls `replace` with non-empty
`old`, which the `!old.isEmpty` conjunct makes explicit. -/
def pyReplaceAux (old new : List Char) : Nat → List Char → List Char
  | 0, l => l
  | fuel + 1, l =>
    match l with
    | [] => []
    | c :: t =>
      if old.isPrefixOf l && !old.isEmpty then
        new ++ pyReplaceAux old new fuel (l.drop old.length)
      else
        c :: pyReplaceAux old new fuel t

/-- Python `s.replace(old, new)` (all occurrences, left to right). -/
def pyReplace (s old new : String) : String :=
  ⟨pyReplaceAux old.data new.data s.data.length s.data⟩

/-- Python `str(x)` on an optional string (`None` prints as `"None"`),
as used by the f-string that builds the `relation` field. -/
def optStr : Option String → String
  | none => "None"
  | some s => s

/-- Value of a hex digit, accepting both cases, as `urllib.parse.unquote`
does. -/
def hexVal (c : Char) : Option Nat :=
  if '0' ≤ c ∧ c ≤ '9' then some (c.toNat - '0'.toNat)
  else if 'a' ≤ c ∧ c ≤ 'f' then some (c.toNat - 'a'.toNat + 10)
  else if 'A' ≤ c ∧ c ≤ 'F' then some (c.toNat - 'A'.toNat + 10)
  else none

/-- UTF-8 encoding of a unicode code point, as a list of byte values. -/
def utf8Enc (n : Nat) : List Nat :=
  if n ≤ 0x7f then [n]
  else if n ≤ 0x7ff then [0xc0 + n / 64, 0x80 + n % 64]
  else if n ≤ 0xffff then [0xe0 + n / 4096, 0x80 + n / 64 % 64, 0x80 + n % 64]
  else [0xf0 + n / 262144, 0x80 + n / 4096 % 64, 0x80 + n / 64 % 64, 0x80 + n % 64]

/-- Is `b` a UTF-8 continuation byte? -/
def isCont (b : Nat) : Bool := 0x80 ≤ b ∧ b ≤ 0xbf

/-- UTF-8 decoding with U+FFFD replacement on malformed input, following
CPython's `errors='replace'` handler (maximal-subpart substitution), which
is what `urllib.parse.unquote` uses.  `fuel` bounds the recursion (each
step consumes at least one byte), initialised to the length of the list. -/
def utf8DecAux : Nat → List Nat → List Char
  | 0, _ => []
  | _, [] => []
  | fuel + 1, b1 :: r1 =>
    if b1 ≤ 0x7f then Char.ofNat b1 :: utf8DecAux fuel r1
    else if 0xc2 ≤ b1 ∧ b1 ≤ 0xdf then
      match r1 with
      | b2 :: r2 =>
        if isCont b2 then
          Char.ofNat ((b1 - 0xc0) * 64 + (b2 - 0x80)) :: utf8DecAux fuel r2
        else '�' :: utf8DecAux fuel r1
      | [] => ['�']
    else if 0xe0 ≤ b1 ∧ b1 ≤ 0xef then
      match r1 with
      | b2 :: r2 =>
        if (if b1 = 0xe0 then 0xa0 ≤ b2 ∧ b2 ≤ 0xbf
            else if b1 = 0xed then 0x80 ≤ b2 ∧ b2 ≤ 0x9f
            else isCont b2) then
          match r2 with
          | b3 :: r3 =>
            if isCont b3 then
              Char.ofNat ((b1 - 0xe0) * 4096 + (b2 - 0x80) * 64 + (b3 - 0x80)) ::
                utf8DecAux fuel r3
            else '�' :: utf8DecAux fuel r2
          | [] => ['�']
        else '�' :: utf8DecAux fuel r1
      | [] => ['�']
    else if 0xf0 ≤ b1 ∧ b1 ≤ 0xf4 then
      match r1 with
      | b2 :: r2 =>
        if (if b1 = 0xf0 then 0x90 ≤ b2 ∧ b2 ≤ 0xbf
            else if b1 = 0xf4 then 0x80 ≤ b2 ∧ b2 ≤ 0x8f
            else isCont b2) then
          match r2 with
          | b3 :: r3 =>
            if isCont b3 then
              match r3 with
              | b4 :: r4 =>
                if isCont b4 then
                  Char.ofNat ((b1 - 0xf0) * 262144 + (b2 - 0x80) * 4096 +
                    (b3 - 0x80) * 64 + (b4 - 0x80)) :: utf8DecAux fuel r4
                else '�' :: utf8DecAux fuel r3
              | [] => ['�']
            else '�' :: utf8DecAux fuel r2
          | [] => ['�']
        else '�' :: utf8DecAux fuel r1
      | [] => ['�']
    else '�' :: utf8DecAux fuel r1

/-- UTF-8 decoding with replacement. -/
def utf8Dec (l : List Nat) : List Char := utf8DecAux l.length l

/-- Percent-decoding to raw bytes: `%hh` becomes the byte `hh`; a `%` not
followed by two hex digits stays literal (as in `urllib.parse.unquote`);
all other characters contribute their UTF-8 bytes. -/
def pctBytes : List Char → List Nat
  | [] => []
  | '%' :: h1 :: h2 :: rest =>
    match hexVal h1, hexVal h2 with
    | some a, some b => (16 * a + b) :: pctBytes rest
    | _, _ => utf8Enc '%'.toNat ++ pctBytes (h1 :: h2 :: rest)
  | c :: rest => utf8Enc c.toNat ++ pctBytes rest

/-- `urllib.parse.unquote(s)`: percent-decode, then UTF-8 decode with
replacement. -/
def unquote (s : String) : String := ⟨utf8Dec (pctBytes s.data)⟩

/-- Characters `urllib.parse.quote` leaves unescaped with the default
`safe='/'`: unreserved characters plus `/`. -/
def quoteSafe (c : Char) : Bool :=
  ('A' ≤ c ∧ c ≤ 'Z') ∨ ('a' ≤ c ∧ c ≤ 'z') ∨ ('0' ≤ c ∧ c ≤ '9') ∨
    c = '_' ∨ c = '.' ∨ c = '-' ∨ c = '~' ∨ c = '/'

/-- Upper-case hex digit for a value below 16. -/
def hexDigit (n : Nat) : Char :=
  if n < 10 then Char.ofNat ('0'.toNat + n) else Char.ofNat ('A'.toNat + n - 10)

/-- `urllib.parse.quote(s)` with the default `safe='/'`: percent-encode the
UTF-8 bytes of every unsafe character, upper-case hex. -/
def quote (s : String) : String :=
  ⟨s.data.flatMap fun c =>
    if quoteSafe c then [c]
    else (utf8Enc c.toNat).flatMap fun b => ['%', hexDigit (b / 16), hexDigit (b % 16)]⟩

/-- Path component of an absolute `http(s)` URL, as
`urllib.parse.urlparse(url).path` computes it: skip the scheme and the
authority (which ends at the first `/`, `?` or `#`), keep up to the first
`?` or `#`, and drop `;`-parameters from the last path segment.  (The
`ValueError` branch of `urlparse`, reachable only for exotic non-ASCII
authorities, is not modelled.) -/
def urlPath (l : List Char) : List Char :=
  let afterScheme :=
    if ("https://".data.isPrefixOf l) then l.drop 8 else l.drop 7
  let fromSlash := afterScheme.dropWhile (fun c => c ≠ '/' ∧ c ≠ '?' ∧ c ≠ '#')
  let path := fromSlash.takeWhile (fun c => c ≠ '?' ∧ c ≠ '#')
  let revSeg := path.reverse.takeWhile (· ≠ '/')
  path.take (path.length - revSeg.length) ++ revSeg.reverse.takeWhile (· ≠ ';')

/-! ## Document model

A parsed document (BeautifulSoup handle) is modelled by the queries the
program performs on it.  `row.find("th")`/`row.find("td")` are `Option`s
(the tag object is truthy whenever present, even with empty text);
`find_all("a", href=True)` is the list of hyperlinks with their anchor
texts and hrefs. -/

/-- A hyperlink: anchor text and href. -/
structure Link where
  text : String
  href : String
deriving DecidableEq, Repr

/-- A `<td>` cell: its hyperlinks (`find_all("a", href=True)`) and its
plain text (`cell.text` / `cell.get_text()`). -/
structure Cell where
  links : List Link
  text : String
deriving DecidableEq, Repr

/-- An infobox `<tr>` row: the text of its first `<th>` (if any) and its
first `<td>` (if any). -/
structure Row where
  header : Option String
  cell : Option Cell
deriving DecidableEq, Repr

/-- A parsed document.  `infobox` is `soup.find("table", {"class":
"infobox"})` as its list of rows; `links` is `soup.find_all("a",
href=True)`; `title` is the text of `soup.find("h1", {"class":
"firstHeading"})`; `text` is `soup.get_text()`; `paragraphs` the texts of
`soup.find_all("p")`. -/
structure Soup where
  infobox : Option (List Row)
  links : List Link
  title : Option String
  text : String
  paragraphs : List String
deriving DecidableEq, Repr

/-- A relationship entity as produced by the extractors:
`{"name": ..., "wiki_url": ...}`. -/
structure Entity where
  name : String
  wiki_url : Option String
deriving DecidableEq, Repr

/-- A resolved entity as produced by `get_linked_entities_with_domains`:
`{"name": ..., "wiki_url": ..., "domain": ...}`. -/
structure EntityD where
  name : String
  wiki_url : Option String
  domain : Option String
deriving DecidableEq, Repr

/-! ## `normalize_domain` and `_normalize_wiki_path` -/

/-- `normalize_domain(url)`: strip `https://`/`http://` (all occurrences,
via `str.replace`), strip a leading `www.`, truncate at the first `/`,
truncate at the first `:`, lower-case and strip.  Returns `none` for the
empty string (`if not url: return None`). -/
def normalize_domain (url : String) : Option String :=
  if url = "" then none
  else
    let u := pyReplace (pyReplace url "https://" "") "http://" ""
    let u := if pyStartsWith u "www." then ⟨u.data.drop 4⟩ else u
    let u := pySplitFirst '/' u
    let u := pySplitFirst ':' u
    some (pyStrip (pyLower u))

/-- `_normalize_wiki_path(path)`: extract the path of a full URL, require
the `/wiki/` prefix, percent-decode the page name, turn underscores into
spaces, strip, upper-case the first character only, then re-encode with
`quote(page.replace(' ', '_'))`. -/
def normalize_wiki_path (path : String) : Option String :=
  if path = "" then none
  else
    let path :=
      if pyStartsWith path "https://" || pyStartsWith path "http://" then
        (⟨urlPath path.data⟩ : String)
      else path
    if ¬ pyStartsWith path "/wiki/" then none
    else
      let page : String := ⟨path.data.drop 6⟩
      if page = "" then none
      else
        let page := unquote page
        let page := pyStrip ⟨page.data.map fun c => if c = '_' then ' ' else c⟩
        let page : String :=
          match page.data with
          | [] => page
          | c :: t => ⟨Char.toUpper c :: t⟩
        some ("/wiki/" ++ quote ⟨page.data.map fun c => if c = ' ' then '_' else c⟩)

/-- `get_wikipedia_page_url(title)`:
`https://en.wikipedia.org/wiki/` + `quote(title.replace(' ', '_'))`. -/
def get_wikipedia_page_url (title : String) : String :=
  "https://en.wikipedia.org/wiki/" ++ quote ⟨title.data.map fun c => if c = ' ' then '_' else c⟩

/-! ## External collaborators

The completion service (`client.chat.completions.create`), the Wikipedia
search API and document fetching are oracles.  A completion oracle maps the
full prompt to either a response text (`.ok`) or an exception (`.error`);
a search oracle maps a keyword to a title list or an exception; a fetch
oracle maps a URL to a parsed document, `none` standing for any
`requests` failure. -/

/-- Type of the completion-service oracle. -/
abbrev CompleteOracle := String → Except Unit String

/-- Type of the Wikipedia-search oracle (`search_wikipedia`). -/
abbrev SearchOracle := String → Except Unit (List String)

/-- Type of the fetch-and-parse oracle (`requests.get` + `BeautifulSoup`). -/
abbrev FetchOracle := String → Option Soup

/-- Prompt built by `guess_wikipedia_search_keywords`. -/
def guessKeywordsPrompt (website_url : String) : String :=
  "Given the official website '" ++ website_url ++
    "', guess up to 3 different search keywords to find the company's Wikipedia page. " ++
    "Include: (1) the company name, (2) the full form if it's an abbreviation, (3) the company name plus its main work/domain. " ++
    "Respond with a comma-separated list of up to 3 keywords or phrases, no explanations."

/-- `guess_wikipedia_search_keywords(website_url)`: one completion call
(not guarded by any `try`), then split the response on commas and trim. -/
def guess_wikipedia_search_keywords (complete : CompleteOracle) (website_url : String) :
    Except Unit (List String) := do
  let content ← complete (guessKeywordsPrompt website_url)
  pure (splitCommaTrim (pyStrip content))

/-- Prompt built by `extract_subsidiaries_from_text`. -/
def subsidiariesPrompt (company_name description : String) : String :=
  "Given the following Wikipedia article text for the company '" ++ company_name ++
    "':\n\n" ++ description ++ "\n\n" ++
    "List the names of companies that are subsidiaries of this company, if any mentioned in the text. " ++
    "Look for phrases like 'subsidiary', 'owns', 'acquired', 'division', 'unit', or similar relationships. " ++
    "Respond with a comma-separated list of subsidiary company names only. If none, respond with an empty string."

/-- Prompt built by `extract_acquisitions_from_description`. -/
def acquisitionsPrompt (company_name description : String) : String :=
  "Given the following Wikipedia article text for the company '" ++ company_name ++
    "':\n\n" ++ description ++ "\n\n" ++
    "List the names of companies that have been acquired by this company, if any. " ++
    "Respond with a comma-separated list of company names only. If none, respond with an empty string."

/-- The non-empty stripped paragraph texts:
`[p.text.strip() for p in soup.find_all("p") if p.text.strip()]`. -/
def strippedParagraphs (soup : Soup) : List String :=
  soup.paragraphs.filterMap fun p =>
    let t := pyStrip p
    if t = "" then none else some t

/-- Python `"\n".join(l)`. -/
def joinNl : List String → String
  | [] => ""
  | [s] => s
  | s :: t => s ++ "\n" ++ joinNl t

/-- `extract_subsidiaries_from_text(soup, company_name)`: empty when there
are no paragraphs; otherwise one completion call on the first 8 stripped
paragraphs, whose failure (caught) or empty stripped response yields `[]`,
and whose response is otherwise comma-split and trimmed. -/
def extract_subsidiaries_from_text (complete : CompleteOracle) (soup : Soup)
    (company_name : String) : List String :=
  let ps := strippedParagraphs soup
  if ps = [] then []
  else
    match complete (subsidiariesPrompt company_name (joinNl (ps.take 8))) with
    | .error _ => []
    | .ok content =>
      let names := pyStrip content
      if names ≠ "" then splitCommaTrim names else []

/-- `extract_acquisitions_from_description(soup, company_name)`: empty when
there are no paragraphs; otherwise one completion call on all stripped
paragraphs, failure caught to `[]`, response comma-split and trimmed. -/
def extract_acquisitions_from_description (complete : CompleteOracle) (soup : Soup)
    (company_name : String) : List String :=
  let ps := strippedParagraphs soup
  if ps = [] then []
  else
    match complete (acquisitionsPrompt company_name (joinNl ps)) with
    | .error _ => []
    | .ok content => splitCommaTrim (pyStrip content)

/-! ## Relationship extractors -/

/-- The placeholder list of `extract_subsidiaries`.  Its first element is
the literal three-character sequence U+00E2 U+20AC U+201D appearing in the
source (a mojibake rendering of an em dash), not the em dash itself. -/
def nonePlaceholders : List String := ["â€”", "-", "None", "N/A"]

/-- Entities emitted from one subsidiaries infobox cell: one entity per
`/wiki/` link with non-empty stripped anchor text; when the cell has no
links at all, its stripped text if non-empty and not a placeholder. -/
def subsCellEntities (cell : Cell) : List Entity :=
  (cell.links.filterMap fun L =>
    let name := pyStrip L.text
    if pyStartsWith L.href "/wiki/" && name ≠ "" then
      some ⟨name, some ("https://en.wikipedia.org" ++ L.href)⟩
    else none) ++
  (if cell.links = [] then
    let t := pyStrip cell.text
    if t ≠ "" && !(nonePlaceholders.contains t) then [⟨t, none⟩] else []
  else [])

/-- Entities emitted from one acquisitions infobox cell: one entity per
`/wiki/` link (the anchor text may be empty; no filter on it); when the
cell has no links at all, its stripped text if non-empty (no placeholder
filter). -/
def acqsCellEntities (cell : Cell) : List Entity :=
  (cell.links.filterMap fun L =>
    let name := pyStrip L.text
    if pyStartsWith L.href "/wiki/" then
      some ⟨name, some ("https://en.wikipedia.org" ++ L.href)⟩
    else none) ++
  (if cell.links = [] then
    let t := pyStrip cell.text
    if t ≠ "" then [⟨t, none⟩] else []
  else [])

/-- Structured (infobox) phase shared by both extractors: all rows whose
header text contains `keyword`, each contributing its cell entities. -/
def infoboxEntities (keyword : String) (cellEntities : Cell → List Entity)
    (soup : Soup) : List Entity :=
  match soup.infobox with
  | none => []
  | some rows =>
    rows.flatMap fun row =>
      match row.header with
      | none => []
      | some h =>
        if pyIn keyword (pyLower h) then
          match row.cell with
          | none => []
          | some cell => cellEntities cell
        else []

/-- The link lookup both inference phases perform for an AI-suggested name:
the first link in the whole page whose href starts with `/wiki/` and whose
stripped, lowered anchor text equals the lowered name. -/
def findWikiLinkForName (soup : Soup) (name : String) : Option String :=
  soup.links.findSome? fun L =>
    if pyStartsWith L.href "/wiki/" && pyLower (pyStrip L.text) == pyLower name then
      some ("https://en.wikipedia.org" ++ L.href)
    else none

/-- The final dedup loop of `extract_subsidiaries`: keep an entity when its
lowered name is unseen and its name is longer than 2 characters. -/
def dedupByName (seen : List String) : List Entity → List Entity
  | [] => []
  | e :: t =>
    let nl := pyLower e.name
    if !(seen.contains nl) && decide (e.name.length > 2) then
      e :: dedupByName (nl :: seen) t
    else dedupByName seen t

/-- `extract_subsidiaries(soup, company_name)`: infobox rows whose header
contains `subsidiar`, then (whenever `company_name` is truthy) the AI
inference phase deduplicated against the structured names only, then the
final case-insensitive dedup that also drops names of length ≤ 2. -/
def extract_subsidiaries (complete : CompleteOracle) (soup : Soup)
    (company_name : Option String) : List Entity :=
  let subsidiaries := infoboxEntities "subsidiar" subsCellEntities soup
  let subsidiaries :=
    if truthyOpt company_name then
      let ai_names := extract_subsidiaries_from_text complete soup (optStr company_name)
      let existing := subsidiaries.map fun sub => pyLower sub.name
      subsidiaries ++ ai_names.filterMap fun sub_name =>
        if !(existing.contains (pyLower sub_name)) && decide (sub_name.length > 2) then
          some ⟨sub_name, findWikiLinkForName soup sub_name⟩
        else none
    else subsidiaries
  dedupByName [] subsidiaries

/-- `extract_acquisitions(soup, company_name)`: infobox rows whose header
contains `acquisit`; only when that yields nothing and `company_name` is
truthy, the AI description phase, each name looked up among the page
links.  No dedup and no length filter. -/
def extract_acquisitions (complete : CompleteOracle) (soup : Soup)
    (company_name : Option String) : List Entity :=
  let acquisitions := infoboxEntities "acquisit" acqsCellEntities soup
  if acquisitions = [] && truthyOpt company_name then
    let ai_names := extract_acquisitions_from_description complete soup (optStr company_name)
    ai_names.map fun name => ⟨name, findWikiLinkForName soup name⟩
  else acquisitions

/-! ## Website extraction and the page matcher -/

/-- `get_official_website_from_infobox(soup)`: the first infobox row whose
header text contains `website` and whose cell's first link has an
`http`-prefixed href; rows failing either test are skipped. -/
def get_official_website_from_infobox (soup : Soup) : Option String :=
  match soup.infobox with
  | none => none
  | some rows =>
    rows.findSome? fun row =>
      match row.header with
      | none => none
      | some h =>
        if pyIn "website" (pyLower h) then
          match row.cell with
          | none => none
          | some cell =>
            match cell.links.head? with
            | none => none
            | some link => if pyStartsWith link.href "http" then some link.href else none
        else none

/-- The header labels `extract_all_websites_from_infobox` looks for. -/
def websiteKeywords : List String := ["website", "url", "homepage", "site", "web"]

/-- One alternative of the regex `https?://[^\s<>"]+|www\.[^\s<>"]+` tried
at the current position: the length of the match, if any.  (`https?` is
greedy on `s`, and the two scheme prefixes are mutually exclusive, so the
first-match rule reduces to this if-chain.) -/
def urlMatchLen (l : List Char) : Option Nat :=
  let body (k : Nat) : Option Nat :=
    let b := (l.drop k).takeWhile fun c => ¬ (isSpc c || c = '<' || c = '>' || c = '"')
    if b = [] then none else some (k + b.length)
  if "https://".data.isPrefixOf l then body 8
  else if "http://".data.isPrefixOf l then body 7
  else if "www.".data.isPrefixOf l then body 4
  else none

/-- `re.findall(r'https?://[^\s<>"]+|www\.[^\s<>"]+', text)`: scan left to
right, taking each leftmost match and resuming after it.  `fuel` bounds
the recursion (each step consumes at least one character). -/
def findUrlsAux : Nat → List Char → List String
  | 0, _ => []
  | _, [] => []
  | fuel + 1, l =>
    match urlMatchLen l with
    | some n => (⟨l.take n⟩ : String) :: findUrlsAux fuel (l.drop n)
    | none =>
      match l with
      | [] => []
      | _ :: t => findUrlsAux fuel t

/-- All regex matches of the URL pattern in a string. -/
def findUrls (s : String) : List String := findUrlsAux s.data.length s.data

/-- `extract_all_websites_from_infobox(soup)`: for every infobox row whose
lowered, stripped header contains one of the website keywords, all
`http`-prefixed link hrefs of its cell, followed by all regex URL matches
in the cell text (plain `www.` matches get an `http://` prefix). -/
def extract_all_websites_from_infobox (soup : Soup) : List String :=
  match soup.infobox with
  | none => []
  | some rows =>
    rows.flatMap fun row =>
      match row.header with
      | none => []
      | some h =>
        let header_text := pyStrip (pyLower h)
        if websiteKeywords.any fun keyword => pyIn keyword header_text then
          match row.cell with
          | none => []
          | some cell =>
            (cell.links.filterMap fun L =>
              if pyStartsWith L.href "http" then some L.href else none) ++
            ((findUrls cell.text).map fun url =>
              if ¬ pyStartsWith url "http" then "http://" ++ url else url)
        else []

/-- `verify_wikipedia_page_match(soup, target_website)`: guard on a truthy
normalized target domain, then the three evidence tiers in order: exact
normalized-domain equality; dot-suffix subdomain relation (candidate
domain must be truthy); title contains the leading domain label (length
> 3) and the page text contains the domain. -/
def verify_wikipedia_page_match (soup : Soup) (target_website : String) : Bool :=
  match normalize_domain target_website with
  | none => false
  | some target_domain =>
    if target_domain = "" then false
    else
      let wiki_websites := extract_all_websites_from_infobox soup
      if wiki_websites.any fun wiki_url => normalize_domain wiki_url == some target_domain then
        true
      else if wiki_websites.any fun wiki_url =>
          match normalize_domain wiki_url with
          | none => false
          | some wiki_domain =>
            wiki_domain ≠ "" &&
              (pyEndsWith wiki_domain ("." ++ target_domain) ||
                pyEndsWith target_domain ("." ++ wiki_domain)) then
        true
      else
        match soup.title with
        | none => false
        | some title =>
          let title_text := pyLower title
          let company_name_from_domain := pySplitFirst '.' target_domain
          if decide (company_name_from_domain.length > 3) &&
              pyIn company_name_from_domain title_text then
            pyIn target_domain (pyLower soup.text)
          else false

/-! ## Link-validated domain resolver -/

/-- Lookup in the `link_map` dictionary `get_linked_entities_with_domains`
builds from the parent page: the dictionary maps each non-empty stripped,
lowered anchor text to the hrefs linked under it, in page order; it is
modelled by its lookup function (a missing key yields `[]`). -/
def linkMapGet (soup : Soup) (key : String) : List String :=
  if key = "" then []
  else
    soup.links.filterMap fun L =>
      if pyLower (pyStrip L.text) == key then some L.href else none

/-- The `domain` computed for one entity by
`get_linked_entities_with_domains`: `None` unless the entity has a truthy
`wiki_url`, its stripped lowered name is anchor text in the parent page,
and some href under that anchor text normalizes to the same wiki path as
the `wiki_url`; then the child page is fetched (failures caught to
`None`) and its official website, if truthy, is normalized. -/
def resolveDomain (fetch : FetchOracle) (soup : Soup) (e : Entity) : Option String :=
  match e.wiki_url with
  | none => none
  | some wiki_url =>
    if wiki_url = "" then none
    else
      let entity_name_lc := pyLower (pyStrip e.name)
      let entity_url_path := normalize_wiki_path wiki_url
      let found_link := truthyOpt entity_url_path &&
        (linkMapGet soup entity_name_lc).any fun href =>
          truthyOpt (normalize_wiki_path href) && (normalize_wiki_path href == entity_url_path)
      if found_link then
        match fetch wiki_url with
        | none => none
        | some entity_soup =>
          match get_official_website_from_infobox entity_soup with
          | none => none
          | some website => if website = "" then none else normalize_domain website
      else none

/-- The record built for one entity by `get_linked_entities_with_domains`:
name and `wiki_url` are copied from the input, only `domain` is new. -/
def resolveEntity (fetch : FetchOracle) (soup : Soup) (e : Entity) : EntityD :=
  { name := e.name, wiki_url := e.wiki_url, domain := resolveDomain fetch soup e }

/-- `get_linked_entities_with_domains(soup, entity_list)`. -/
def get_linked_entities_with_domains (fetch : FetchOracle) (soup : Soup)
    (entity_list : List Entity) : List EntityD :=
  entity_list.map (resolveEntity fetch soup)

/-! ## Resolution orchestrator (`target`) -/

/-- A subsidiary record of the final result. -/
structure SubRecord where
  name : String
  domain : Option String
  relation : String
  wiki_url : Option String
deriving DecidableEq, Repr

/-- The final record assembled by `target`. -/
structure TargetResult where
  main_domain : Option String
  wikipedia_url : String
  subsidiaries : List SubRecord
  acquisitions : List EntityD
deriving DecidableEq, Repr

/-- The per-keyword candidate loop of the acquisition fallback in `target`:
take the first title a keyword search returns; accept its page URL when it
differs from the parent page URL and some word (longer than 2 characters)
of the lowered entity name occurs in the lowered title; otherwise try the
next keyword.  Search failures escape to the surrounding `try`. -/
def acqKeywordLoop (search : SearchOracle) (parent_url entity_name : String) :
    List String → Except Unit (Option String)
  | [] => pure none
  | acq_keyword :: rest => do
    let acq_titles ← search acq_keyword
    match acq_titles.head? with
    | none => acqKeywordLoop search parent_url entity_name rest
    | some t0 =>
      let candidate_url := get_wikipedia_page_url t0
      if candidate_url ≠ parent_url then
        let candidate_title := pyLower t0
        if (pySplitWs (pyLower entity_name)).any fun word =>
            decide (word.length > 2) && pyIn word candidate_title then
          pure (some candidate_url)
        else acqKeywordLoop search parent_url entity_name rest
      else acqKeywordLoop search parent_url entity_name rest

/-- The per-acquisition fallback of `target`: for an acquisition without a
truthy `wiki_url` but with a non-empty name, guess keywords and run the
candidate loop; any exception inside (keyword guessing or search) is
caught and leaves the entity unchanged. -/
def acqFallback (complete : CompleteOracle) (search : SearchOracle) (parent_url : String)
    (acq : Entity) : Entity :=
  if truthyOpt acq.wiki_url || acq.name = "" then acq
  else
    match (do
      let acq_keywords ← guess_wikipedia_search_keywords complete acq.name
      acqKeywordLoop search parent_url acq.name acq_keywords : Except Unit (Option String)) with
    | .error _ => acq
    | .ok none => acq
    | .ok (some candidate_url) => { acq with wiki_url := some candidate_url }

/-- Result assembly once a page is verified: extract both relation lists,
run the acquisition fallback, resolve domains over the parent page, and
build the final record (the `relation` field stringifies a `None` main
domain as Python does). -/
def buildResult (complete : CompleteOracle) (search : SearchOracle) (fetch : FetchOracle)
    (company_website url title : String) (soup : Soup) : TargetResult :=
  let main_domain := normalize_domain company_website
  let subsidiaries := extract_subsidiaries complete soup (some title)
  let acquisitions := extract_acquisitions complete soup (some title)
  let acquisitions := acquisitions.map (acqFallback complete search url)
  let subsidiaries_with_domains := get_linked_entities_with_domains fetch soup subsidiaries
  let acquisitions_with_domains := get_linked_entities_with_domains fetch soup acquisitions
  { main_domain := main_domain
    wikipedia_url := url
    subsidiaries := subsidiaries_with_domains.map fun sub =>
      ⟨sub.name, sub.domain, "subsidiary of " ++ optStr main_domain, sub.wiki_url⟩
    acquisitions := acquisitions_with_domains }

/-- The inner title loop of `target`: fetch each candidate page (fetch
failures are caught and skipped), return the assembled result for the
first page the matcher verifies. -/
def targetTitleLoop (complete : CompleteOracle) (search : SearchOracle) (fetch : FetchOracle)
    (company_website : String) : List String → Option TargetResult
  | [] => none
  | title :: rest =>
    let url := get_wikipedia_page_url title
    match fetch url with
    | none => targetTitleLoop complete search fetch company_website rest
    | some soup =>
      if verify_wikipedia_page_match soup company_website then
        some (buildResult complete search fetch company_website url title soup)
      else targetTitleLoop complete search fetch company_website rest

/-- The keyword loop of `target`: search each keyword (search failures are
not caught and propagate), skip keywords without results, try the first 8
titles of each. -/
def targetKeywordLoop (complete : CompleteOracle) (search : SearchOracle) (fetch : FetchOracle)
    (company_website : String) : List String → Except Unit (Option TargetResult)
  | [] => pure none
  | keyword :: rest => do
    let titles ← search keyword
    if titles = [] then targetKeywordLoop complete search fetch company_website rest
    else
      match targetTitleLoop complete search fetch company_website (titles.take 8) with
      | some result => pure (some result)
      | none => targetKeywordLoop complete search fetch company_website rest

/-- `target(company_website)`: guess keywords (unguarded: a collaborator
failure propagates), then run the keyword loop; `none` is the no-match
outcome. -/
def target (complete : CompleteOracle) (search : SearchOracle) (fetch : FetchOracle)
    (company_website : String) : Except Unit (Option TargetResult) := do
  let keywords ← guess_wikipedia_search_keywords complete company_website
  targetKeywordLoop complete search fetch company_website keywords

/-! ## Spec-side definitions

Predicates written from the words of the specification/claims, to be
compared with the embedded code. -/

/-- Modelled from the spec (matcher tier 1): some collected website URL
normalizes to a domain equal to the normalized target domain. -/
def matcherTier1 (soup : Soup) (target_domain : String) : Prop :=
  ∃ u ∈ extract_all_websites_from_infobox soup, normalize_domain u = some target_domain

/-- Modelled from the spec (matcher tier 2): some collected candidate's
normalized domain is a dot-suffix of the normalized target domain or vice
versa (with the candidate domain non-empty, as the code requires). -/
def matcherTier2 (soup : Soup) (target_domain : String) : Prop :=
  ∃ u ∈ extract_all_websites_from_infobox soup, ∃ w,
    normalize_domain u = some w ∧ w ≠ "" ∧
      (pyEndsWith w ("." ++ target_domain) = true ∨
        pyEndsWith target_domain ("." ++ w) = true)

/-- Modelled from the spec (matcher tier 3): the lowered title contains the
target domain's leading label, that label is longer than 3 characters, and
the lowered page text contains the full normalized target domain. -/
def matcherTier3 (soup : Soup) (target_domain : String) : Prop :=
  ∃ t, soup.title = some t ∧
    (pySplitFirst '.' target_domain).length > 3 ∧
    pyIn (pySplitFirst '.' target_domain) (pyLower t) = true ∧
    pyIn target_domain (pyLower soup.text) = true

/-- Modelled from the spec (claim C8): the child document's declared
website under the matcher-tier-1 label rule — any header containing one of
the five website-like keywords — taking the first hyperlinked
`http`-prefixed value. -/
def specDeclaredWebsite (soup : Soup) : Option String :=
  match soup.infobox with
  | none => none
  | some rows =>
    rows.findSome? fun row =>
      match row.header with
      | none => none
      | some h =>
        if websiteKeywords.any fun keyword => pyIn keyword (pyStrip (pyLower h)) then
          match row.cell with
          | none => none
          | some cell =>
            cell.links.findSome? fun L =>
              if pyStartsWith L.href "http" then some L.href else none
        else none

/-! ## Concrete fixtures for witnesses and counterexamples -/

/-- A completion oracle that always fails (service unavailable). -/
def completeErr : CompleteOracle := fun _ => .error ()

/-- A completion oracle that always answers the empty string. -/
def completeEmpty : CompleteOracle := fun _ => .ok ""

/-- A completion oracle that always answers `Gamma Corp`. -/
def completeGamma : CompleteOracle := fun _ => .ok "Gamma Corp"

/-- A search oracle that always returns no titles. -/
def searchNone : SearchOracle := fun _ => .ok []

/-- A fetch oracle for which every request fails. -/
def fetchNone : FetchOracle := fun _ => none

/-- Parent page for the C1 witness: one link anchoring `Acme Labs`. -/
def soupC1 : Soup := ⟨none, [⟨"Acme Labs", "/wiki/Acme_Labs"⟩], none, "", []⟩

/-- Child page for the C1 witness: an infobox declaring a website. -/
def childC1 : Soup :=
  ⟨some [⟨some "Website", some ⟨[⟨"acmelabs.io", "https://acmelabs.io"⟩], "acmelabs.io"⟩⟩],
    [], none, "", []⟩

/-- Entity for the C1 witness. -/
def entC1 : Entity := ⟨"Acme Labs", some "https://en.wikipedia.org/wiki/Acme_Labs"⟩

/-- Fetch oracle for the C1 witness. -/
def fetchC1 : FetchOracle := fun _ => some childC1

/-- Document for the C2 counterexample: its website row links the
degenerate URL `http://`, which normalizes to the empty domain. -/
def soupC2 : Soup :=
  ⟨some [⟨some "Website", some ⟨[⟨"link", "http://"⟩], ""⟩⟩], [], none, "", []⟩

/-- Document for the C3 counterexample: an acquisitions row with two
identical links and one two-character name. -/
def soupC3 : Soup :=
  ⟨some [⟨some "Acquisitions",
      some ⟨[⟨"Foo", "/wiki/Foo"⟩, ⟨"Foo", "/wiki/Foo"⟩, ⟨"AB", "/wiki/AB"⟩], "x"⟩⟩],
    [], none, "", []⟩

/-- Document for the C6 counterexample: a subsidiaries row with two
hyperlinked names, and body text for the inference phase. -/
def soupC6 : Soup :=
  ⟨some [⟨some "Subsidiaries",
      some ⟨[⟨"Alpha", "/wiki/Alpha"⟩, ⟨"Beta", "/wiki/Beta"⟩], "Alpha Beta"⟩⟩],
    [], none, "", ["Acme owns Gamma Corp."]⟩

/-- Link-free cell whose text is a bare hyphen (a claimed placeholder). -/
def cellDashC7 : Cell := ⟨[], "-"⟩

/-- Link-free cell whose text is a real em dash U+2014 (which the claimed
placeholder set contains, but the code's mojibake list does not). -/
def cellEmDashC7 : Cell := ⟨[], "—"⟩

/-- Parent page for C8: links the entity name to its wiki page. -/
def soupC8 : Soup := ⟨none, [⟨"Foo Co", "/wiki/Foo_Co"⟩], none, "", []⟩

/-- Entity for C8, hyperlinked in `soupC8`. -/
def entC8 : Entity := ⟨"Foo Co", some "https://en.wikipedia.org/wiki/Foo_Co"⟩

/-- Child page for C8: declares its website under the header `URL`, which
the five-keyword rule matches but `get_official_website_from_infobox`
does not. -/
def childC8 : Soup :=
  ⟨some [⟨some "URL", some ⟨[⟨"foo.com", "http://foo.com"⟩], "foo.com"⟩⟩], [], none, "", []⟩

/-- Fetch oracle for C8. -/
def fetchC8 : FetchOracle := fun _ => some childC8

/-! ## General lemmas about the string primitives -/

theorem char_toNat_ofNat_valid {m : Nat} (hv : m.isValidChar) : (Char.ofNat m).toNat = m := by
  rw [Char.ofNat, dif_pos hv]
  rfl

theorem char_toLower_idem (c : Char) : Char.toLower (Char.toLower c) = Char.toLower c := by
  by_cases h : c.toNat ≥ 65 ∧ c.toNat ≤ 90
  · have hv : (Char.toNat c + 32).isValidChar := by
      left
      omega
    have h1 : Char.toLower c = Char.ofNat (c.toNat + 32) := by
      unfold Char.toLower
      rw [if_pos h]
    rw [h1]
    unfold Char.toLower
    rw [if_neg]
    rw [char_toNat_ofNat_valid hv]
    omega
  · have h1 : Char.toLower c = c := by
      unfold Char.toLower
      rw [if_neg h]
    rw [h1, h1]

theorem char_toLower_eq_low {c d : Char} (hd : d.toNat < 97) (h : Char.toLower c = d) : c = d := by
  by_cases hr : c.toNat ≥ 65 ∧ c.toNat ≤ 90
  · exfalso
    have hv : (Char.toNat c + 32).isValidChar := by
      left
      omega
    have h1 : (Char.toLower c).toNat = c.toNat + 32 := by
      unfold Char.toLower
      rw [if_pos hr]
      exact char_toNat_ofNat_valid hv
    rw [h] at h1
    omega
  · have h1 : Char.toLower c = c := by
      unfold Char.toLower
      rw [if_neg hr]
    rw [← h1, h]

theorem pyReplaceAux_eq_self {o n : List Char} {c : Char} (hc : c ∈ o) :
    ∀ fuel (l : List Char), c ∉ l → pyReplaceAux o n fuel l = l := by
  intro fuel
  induction fuel with
  | zero => intro l _; rfl
  | succ f ih =>
    intro l h
    cases l with
    | nil => rfl
    | cons a t =>
      have hpref : o.isPrefixOf (a :: t) = false := by
        cases hp : o.isPrefixOf (a :: t) with
        | false => rfl
        | true => exact absurd ((List.isPrefixOf_iff_prefix.mp hp).subset hc) h
      rw [pyReplaceAux, hpref]
      simp only [Bool.false_and, Bool.false_eq_true, if_false]
      rw [ih t fun ht => h (List.mem_cons_of_mem a ht)]

theorem pyReplace_eq_self {s o n : String} {c : Char} (hc : c ∈ o.data) (hs : c ∉ s.data) :
    pyReplace s o n = s := by
  unfold pyReplace
  rw [pyReplaceAux_eq_self hc _ _ hs]

theorem dropWhile_eq_self_of_head {α : Type} (p : α → Bool) (l : List α)
    (h : ∀ a, l.head? = some a → p a = false) : l.dropWhile p = l := by
  cases l with
  | nil => rfl
  | cons x t =>
    have hx := h x rfl
    simp [List.dropWhile_cons, hx]

theorem mem_pyStripL {x : Char} {l : List Char} (h : x ∈ pyStripL l) : x ∈ l := by
  unfold pyStripL at h
  rw [List.mem_reverse] at h
  have h1 := (List.dropWhile_sublist isSpc).subset h
  rw [List.mem_reverse] at h1
  exact (List.dropWhile_sublist isSpc).subset h1

theorem pyStripL_head (l : List Char) : ∀ a, (pyStripL l).head? = some a → isSpc a = false := by
  intro a ha
  unfold pyStripL at ha
  rw [List.head?_reverse] at ha
  obtain ⟨t, ht⟩ := List.dropWhile_suffix (l := (l.dropWhile isSpc).reverse) isSpc
  have h2 : (l.dropWhile isSpc).reverse.getLast? = some a := by
    rw [← ht, List.getLast?_append, ha]
    rfl
  rw [List.getLast?_reverse] at h2
  have h3 := List.head?_dropWhile_not isSpc l
  rw [h2] at h3
  exact h3

theorem pyStripL_idem (l : List Char) : pyStripL (pyStripL l) = pyStripL l := by
  have hA : (pyStripL l).dropWhile isSpc = pyStripL l :=
    dropWhile_eq_self_of_head isSpc (pyStripL l) (pyStripL_head l)
  conv_lhs => rw [pyStripL]
  rw [hA]
  unfold pyStripL
  rw [List.reverse_reverse, List.dropWhile_idempotent]

theorem normalize_domain_fixed {s : String} (hne : s ≠ "")
    (hwww : pyStartsWith s "www." = false)
    (hmem : ∀ c ∈ s.data, Char.toLower c = c ∧ c ≠ ':' ∧ c ≠ '/')
    (hstrip : pyStripL s.data = s.data) : normalize_domain s = some s := by
  have hc1 : (':' : Char) ∉ s.data := fun h => (hmem _ h).2.1 rfl
  have hr1 : pyReplace s "https://" "" = s := pyReplace_eq_self (c := ':') (by decide) hc1
  have hr2 : pyReplace s "http://" "" = s := pyReplace_eq_self (c := ':') (by decide) hc1
  have hsp1 : pySplitFirst '/' s = s := by
    unfold pySplitFirst
    rw [List.takeWhile_eq_self_iff.mpr]
    intro x hx
    simpa using (hmem x hx).2.2
  have hsp2 : pySplitFirst ':' s = s := by
    unfold pySplitFirst
    rw [List.takeWhile_eq_self_iff.mpr]
    intro x hx
    simpa using (hmem x hx).2.1
  have hlow : pyLower s = s := by
    unfold pyLower
    rw [List.map_congr_left (g := id) fun a ha => (hmem a ha).1, List.map_id]
  have hstr : pyStrip s = s := by
    unfold pyStrip
    rw [hstrip]
  simp only [normalize_domain, if_neg hne]
  rw [hr1, hr2, hwww]
  simp only [Bool.false_eq_true, if_false]
  rw [hsp1, hsp2, hlow, hstr]

theorem normalize_domain_mem {x s : String} (hx : normalize_domain x = some s) :
    (∀ c ∈ s.data, Char.toLower c = c ∧ c ≠ ':' ∧ c ≠ '/') ∧ pyStripL s.data = s.data := by
  by_cases hx0 : x = ""
  · rw [hx0] at hx
    exact absurd hx (by simp [normalize_domain])
  · simp only [normalize_domain, if_neg hx0] at hx
    have hs := Option.some.inj hx
    subst hs
    constructor
    · intro c hc
      have hc1 := mem_pyStripL hc
      obtain ⟨c₀, hc₀, hcl⟩ := List.mem_map.mp hc1
      subst hcl
      refine ⟨char_toLower_idem c₀, ?_, ?_⟩
      · intro hEq
        have hc0 : c₀ = ':' := char_toLower_eq_low (by decide) hEq
        have h4 := List.mem_takeWhile_imp hc₀
        simp only [decide_eq_true_eq] at h4
        exact h4 hc0
      · intro hEq
        have hc0 : c₀ = '/' := char_toLower_eq_low (by decide) hEq
        have hc₀3 := (List.takeWhile_prefix _).subset hc₀
        have h4 := List.mem_takeWhile_imp hc₀3
        simp only [decide_eq_true_eq] at h4
        exact h4 hc0
    · exact pyStripL_idem _

/-! ## Claim C4: idempotence of the domain normalizer -/

/-- Claim C4, counterexample: `normalize_domain` is not idempotent on every
string.  At `"WWW.A"` the first pass lower-cases but does not strip the
upper-case `WWW.` prefix (Python `startswith` is case-sensitive and runs
before `lower()`), so a second pass strips further. -/
theorem C4_normalize_domain_not_idempotent :
    normalize_domain "WWW.A" = some "www.a" ∧ normalize_domain "www.a" = some "a" ∧
      (some "www.a" : Option String) ≠ some "a" :=
  ⟨by decide, by decide, by decide⟩

/-- Claim C4 (amended): `normalize_domain` is idempotent on every input
whose normalization is non-empty and does not start with `www.` (the
counterexample's failure channel), and the three quoted inputs all
normalize to `acme.com`. -/
theorem C4_normalize_domain_idempotent_amended :
    (∀ x s : String, normalize_domain x = some s → s ≠ "" →
      pyStartsWith s "www." = false → normalize_domain s = some s) ∧
    normalize_domain "https://www.acme.com/about" = some "acme.com" ∧
    normalize_domain "acme.com" = some "acme.com" ∧
    normalize_domain "http://acme.com:8080/x" = some "acme.com" := by
  refine ⟨?_, by decide, by decide, by decide⟩
  intro x s hx hne hwww
  obtain ⟨hmem, hstrip⟩ := normalize_domain_mem hx
  exact normalize_domain_fixed hne hwww hmem hstrip

/-- Witness for C4: the amended idempotence applied at `"ACME.COM"`. -/
theorem C4_witness : normalize_domain "acme.com" = some "acme.com" :=
  C4_normalize_domain_idempotent_amended.1 "ACME.COM" "acme.com" (by decide) (by decide)
    (by decide)

/-! ## Claim C5: the reference path normalizer -/

/-- Claim C5, counterexample: the two quoted links do not normalize to the
same path, because only the leading character's case is normalized:
`/wiki/Acme_Corp` keeps its capital `C`, while the percent-encoded
lower-case link becomes `/wiki/Acme_corp`. -/
theorem C5_normalize_wiki_path_counterexample :
    normalize_wiki_path "/wiki/Acme_Corp" = some "/wiki/Acme_Corp" ∧
    normalize_wiki_path "https://ref.example/wiki/acme%20corp" = some "/wiki/Acme_corp" ∧
    (some "/wiki/Acme_Corp" : Option String) ≠ some "/wiki/Acme_corp" :=
  ⟨by decide, by decide, by decide⟩

/-- Claim C5 (amended): links differing only by percent-encoding,
underscore/space substitution, or the case of the leading character
collapse to the same normalized path (here `/wiki/Acme_corp`, the page
name `Acme corp` with only its first character upper-cased); non-leading
case is preserved. -/
theorem C5_normalize_wiki_path_amended :
    normalize_wiki_path "/wiki/Acme_corp" = some "/wiki/Acme_corp" ∧
    normalize_wiki_path "https://ref.example/wiki/acme%20corp" = some "/wiki/Acme_corp" ∧
    normalize_wiki_path "/wiki/acme_corp" = some "/wiki/Acme_corp" ∧
    normalize_wiki_path "/wiki/Acme%5Fcorp" = some "/wiki/Acme_corp" :=
  ⟨by decide, by decide, by decide, by decide⟩

/-! ## Claim C10: the resolver is a frame over name and wiki_url -/

/-- Claim C10: `get_linked_entities_with_domains` returns one record per
input entity, in order, copying `name` and `wiki_url` unchanged; only
`domain` is newly determined. -/
theorem C10_resolver_frame (fetch : FetchOracle) (soup : Soup) (es : List Entity) :
    (get_linked_entities_with_domains fetch soup es).map (fun r => (r.name, r.wiki_url)) =
      es.map fun e => (e.name, e.wiki_url) := by
  unfold get_linked_entities_with_domains
  rw [List.map_map]
  rfl

/-! ## Claim C1: the link-validation gate guards every resolved domain -/

/-- Claim C1: for every parent document and entity of the input list, the
returned `domain` is non-null only if the entity has a truthy
`candidate_ref_url`, its stripped lower-cased name is the anchor text of
some hyperlink of the parent document, and a hyperlink under that exact
anchor text has a (non-null) normalized wiki path equal to that of the
`candidate_ref_url`.  In particular an entity whose name anchors no link
never receives a non-null domain. -/
theorem C1_resolver_domain_gate (fetch : FetchOracle) (soup : Soup) (es : List Entity)
    (r : EntityD) (hr : r ∈ get_linked_entities_with_domains fetch soup es)
    (hd : r.domain ≠ none) :
    ∃ e ∈ es, e.name = r.name ∧ e.wiki_url = r.wiki_url ∧
      ∃ w, e.wiki_url = some w ∧ w ≠ "" ∧
        ∃ L ∈ soup.links, pyLower (pyStrip L.text) = pyLower (pyStrip e.name) ∧
          normalize_wiki_path L.href = normalize_wiki_path w ∧
          normalize_wiki_path L.href ≠ none := by
  obtain ⟨e, he, hre⟩ := List.mem_map.mp hr
  subst hre
  refine ⟨e, he, rfl, rfl, ?_⟩
  have hd' : resolveDomain fetch soup e ≠ none := hd
  cases hw : e.wiki_url with
  | none =>
    simp only [resolveDomain, hw] at hd'
    exact absurd rfl hd'
  | some w =>
    simp only [resolveDomain, hw] at hd'
    by_cases hwe : w = ""
    · rw [if_pos hwe] at hd'
      exact absurd rfl hd'
    · rw [if_neg hwe] at hd'
      refine ⟨w, rfl, hwe, ?_⟩
      by_cases hf : (truthyOpt (normalize_wiki_path w) &&
          (linkMapGet soup (pyLower (pyStrip e.name))).any fun href =>
            truthyOpt (normalize_wiki_path href) &&
              (normalize_wiki_path href == normalize_wiki_path w)) = true
      · obtain ⟨_, hany⟩ := Bool.and_eq_true_iff.mp hf
        obtain ⟨href, hhref, hcone⟩ := List.any_eq_true.mp hany
        by_cases hk : pyLower (pyStrip e.name) = ""
        · rw [linkMapGet, if_pos hk] at hhref
          exact absurd hhref (List.not_mem_nil href)
        · rw [linkMapGet, if_neg hk] at hhref
          obtain ⟨L, hL, hLeq⟩ := List.mem_filterMap.mp hhref
          by_cases hteq : (pyLower (pyStrip L.text) == pyLower (pyStrip e.name)) = true
          · rw [if_pos hteq] at hLeq
            have hhref_eq : L.href = href := Option.some.inj hLeq
            obtain ⟨ht1, ht2⟩ := Bool.and_eq_true_iff.mp hcone
            refine ⟨L, hL, eq_of_beq hteq, ?_, ?_⟩
            · rw [hhref_eq]
              exact eq_of_beq ht2
            · rw [hhref_eq]
              cases hnn : normalize_wiki_path href with
              | none => rw [hnn] at ht1; exact absurd ht1 (by simp [truthyOpt])
              | some p => simp
          · rw [if_neg hteq] at hLeq
            exact absurd hLeq (by simp)
      · rw [if_neg hf] at hd'
        exact absurd rfl hd'

/-- Witness for C1: a concrete entity whose resolved domain is non-null,
together with the gate facts the theorem extracts for it. -/
theorem C1_witness :
    ∃ e ∈ [entC1], e.name = (resolveEntity fetchC1 soupC1 entC1).name ∧
      e.wiki_url = (resolveEntity fetchC1 soupC1 entC1).wiki_url ∧
      ∃ w, e.wiki_url = some w ∧ w ≠ "" ∧
        ∃ L ∈ soupC1.links, pyLower (pyStrip L.text) = pyLower (pyStrip e.name) ∧
          normalize_wiki_path L.href = normalize_wiki_path w ∧
          normalize_wiki_path L.href ≠ none :=
  C1_resolver_domain_gate fetchC1 soupC1 [entC1] (resolveEntity fetchC1 soupC1 entC1)
    (by decide) (by decide)

/-! ## Claim C2: the tiered page matcher -/

theorem tier1_any_iff (soup : Soup) (d : String) :
    ((extract_all_websites_from_infobox soup).any fun wiki_url =>
      normalize_domain wiki_url == some d) = true ↔ matcherTier1 soup d := by
  rw [List.any_eq_true]
  unfold matcherTier1
  constructor
  · rintro ⟨u, hu, hb⟩
    exact ⟨u, hu, eq_of_beq hb⟩
  · rintro ⟨u, hu, he⟩
    exact ⟨u, hu, beq_iff_eq.mpr he⟩

theorem tier2_any_iff (soup : Soup) (d : String) :
    ((extract_all_websites_from_infobox soup).any fun wiki_url =>
      match normalize_domain wiki_url with
      | none => false
      | some wiki_domain =>
        wiki_domain ≠ "" &&
          (pyEndsWith wiki_domain ("." ++ d) || pyEndsWith d ("." ++ wiki_domain))) = true ↔
      matcherTier2 soup d := by
  rw [List.any_eq_true]
  unfold matcherTier2
  constructor
  · rintro ⟨u, hu, hb⟩
    cases hnd : normalize_domain u with
    | none => rw [hnd] at hb; exact absurd hb (by simp)
    | some w =>
      rw [hnd] at hb
      obtain ⟨hw1, hw2⟩ := Bool.and_eq_true_iff.mp hb
      exact ⟨u, hu, w, hnd, of_decide_eq_true hw1, Bool.or_eq_true_iff.mp hw2⟩
  · rintro ⟨u, hu, w, hw, hne, hor⟩
    refine ⟨u, hu, ?_⟩
    rw [hw]
    rcases hor with h | h <;> simp [hne, h]

/-- Claim C2, counterexample: the claim's tier 1 as stated can hold while
the matcher returns `false`.  With target `http://` (which normalizes to
the empty domain) and a document whose website row links `http://`, some
candidate normalizes to a domain equal to the normalized target domain,
yet the function's truthiness guard rejects the empty target domain. -/
theorem C2_matcher_counterexample :
    verify_wikipedia_page_match soupC2 "http://" = false ∧
    normalize_domain "http://" = some "" ∧
    (∃ u ∈ extract_all_websites_from_infobox soupC2, normalize_domain u = some "") :=
  ⟨by decide, by decide, ⟨"http://", by decide, by decide⟩⟩

/-- Claim C2 (amended): the matcher returns true iff the target website
normalizes to a non-empty domain `d` and one of the three tiers holds:
(1) some collected candidate normalizes to exactly `d`; (2) some
candidate's non-empty normalized domain is a dot-suffix of `d` or vice
versa; (3) the lowered title contains `d`'s leading label, that label is
longer than 3 characters, and the lowered page text contains `d`.  When
the target normalizes to null or the empty string the matcher returns
false regardless of the tiers. -/
theorem C2_matcher_tiers_amended (soup : Soup) (target_website : String) :
    verify_wikipedia_page_match soup target_website = true ↔
      ∃ d, normalize_domain target_website = some d ∧ d ≠ "" ∧
        (matcherTier1 soup d ∨ matcherTier2 soup d ∨ matcherTier3 soup d) := by
  unfold verify_wikipedia_page_match
  cases hnd : normalize_domain target_website with
  | none => simp
  | some d =>
    dsimp only
    by_cases hde : d = ""
    · subst hde
      simp
    · rw [if_neg hde]
      have hex : (∃ d', (some d : Option String) = some d' ∧ d' ≠ "" ∧
          (matcherTier1 soup d' ∨ matcherTier2 soup d' ∨ matcherTier3 soup d')) ↔
          (matcherTier1 soup d ∨ matcherTier2 soup d ∨ matcherTier3 soup d) := by
        constructor
        · rintro ⟨d', hd', _, h⟩
          cases Option.some.inj hd'
          exact h
        · intro h
          exact ⟨d, rfl, hde, h⟩
      rw [hex]
      by_cases h1 : ((extract_all_websites_from_infobox soup).any fun wiki_url =>
          normalize_domain wiki_url == some d) = true
      · rw [if_pos h1]
        exact iff_of_true rfl (Or.inl ((tier1_any_iff soup d).mp h1))
      · rw [if_neg h1]
        by_cases h2 : ((extract_all_websites_from_infobox soup).any fun wiki_url =>
            match normalize_domain wiki_url with
            | none => false
            | some wiki_domain =>
              wiki_domain ≠ "" &&
                (pyEndsWith wiki_domain ("." ++ d) ||
                  pyEndsWith d ("." ++ wiki_domain))) = true
        · rw [if_pos h2]
          exact iff_of_true rfl (Or.inr (Or.inl ((tier2_any_iff soup d).mp h2)))
        · rw [if_neg h2]
          have nt1 : ¬ matcherTier1 soup d := fun h => h1 ((tier1_any_iff soup d).mpr h)
          have nt2 : ¬ matcherTier2 soup d := fun h => h2 ((tier2_any_iff soup d).mpr h)
          cases ht : soup.title with
          | none =>
            simp only [matcherTier3, ht]
            constructor
            · intro hb
              exact absurd hb (by simp)
            · rintro (h | h | ⟨t, htt, _⟩)
              · exact absurd h nt1
              · exact absurd h nt2
              · exact absurd htt (by simp)
          | some title =>
            simp only [ht]
            by_cases h3 : (decide ((pySplitFirst '.' d).length > 3) &&
                pyIn (pySplitFirst '.' d) (pyLower title)) = true
            · rw [if_pos h3]
              obtain ⟨h3a, h3b⟩ := Bool.and_eq_true_iff.mp h3
              constructor
              · intro hb
                exact Or.inr (Or.inr ⟨title, ht, of_decide_eq_true h3a, h3b, hb⟩)
              · rintro (h | h | ⟨t, htt, hlen, hcn, hhb⟩)
                · exact absurd h nt1
                · exact absurd h nt2
                · cases Option.some.inj (ht ▸ htt)
                  exact hhb
            · rw [if_neg h3]
              constructor
              · intro hb
                exact absurd hb (by simp)
              · rintro (h | h | ⟨t, htt, hlen, hcn, _⟩)
                · exact absurd h nt1
                · exact absurd h nt2
                · cases Option.some.inj (ht ▸ htt)
                  exact (h3 (by simp [hlen, hcn])).elim

/-! ## Claim C3: dedup of the relationship lists -/

theorem dedupByName_sound (l : List Entity) : ∀ seen : List String,
    (∀ e ∈ dedupByName seen l, 2 < e.name.length ∧ pyLower e.name ∉ seen) ∧
    (dedupByName seen l).Pairwise (fun a b => pyLower a.name ≠ pyLower b.name) := by
  induction l with
  | nil =>
    intro seen
    exact ⟨fun e he => absurd he (List.not_mem_nil e), List.Pairwise.nil⟩
  | cons e t ih =>
    intro seen
    by_cases hc : (!(seen.contains (pyLower e.name)) && decide (e.name.length > 2)) = true
    · simp only [dedupByName, hc, if_true]
      obtain ⟨hns, hlen⟩ := Bool.and_eq_true_iff.mp hc
      have hnotin : pyLower e.name ∉ seen := by simpa using hns
      constructor
      · intro e' he'
        rcases List.mem_cons.mp he' with he' | he'
        · subst he'
          exact ⟨of_decide_eq_true hlen, hnotin⟩
        · obtain ⟨h1, h2⟩ := (ih (pyLower e.name :: seen)).1 e' he'
          exact ⟨h1, fun hm => h2 (List.mem_cons_of_mem _ hm)⟩
      · refine List.Pairwise.cons ?_ (ih (pyLower e.name :: seen)).2
        intro b hb heq
        exact ((ih (pyLower e.name :: seen)).1 b hb).2 (heq ▸ List.mem_cons_self _ _)
    · simp only [dedupByName, hc, if_false]
      exact ih seen

/-- Claim C3, counterexample: `extract_acquisitions` performs no final
dedup and no length filter — a structured acquisitions cell with two
identical `Foo` links and an `AB` link yields a list with two
case-insensitively equal names and a name of length 2. -/
theorem C3_acquisitions_dedup_counterexample :
    ¬ (((extract_acquisitions completeErr soupC3 none).Pairwise
        fun a b => pyLower a.name ≠ pyLower b.name) ∧
      ∀ e ∈ extract_acquisitions completeErr soupC3 none, 2 < e.name.length) := by
  decide

/-- Claim C3 (amended): the dedup invariant holds for
`extract_subsidiaries` (no two case-insensitively equal names, no name of
length ≤ 2, for every document, company name and completion oracle);
`extract_acquisitions` has no such dedup. -/
theorem C3_subsidiaries_dedup_amended (complete : CompleteOracle) (soup : Soup)
    (company_name : Option String) :
    ((extract_subsidiaries complete soup company_name).Pairwise
      fun a b => pyLower a.name ≠ pyLower b.name) ∧
    ∀ e ∈ extract_subsidiaries complete soup company_name, 2 < e.name.length := by
  refine ⟨(dedupByName_sound _ []).2, ?_⟩
  intro e he
  exact ((dedupByName_sound _ []).1 e he).1

/-! ## Claim C6: structured phase versus inference phase -/

/-- Claim C6, counterexample: with a hyperlinked subsidiaries field,
`extract_subsidiaries` still attempts the inference call whenever a
company name is given — its output depends on the completion oracle and
contains more than the two hyperlinked entities. -/
theorem C6_subsidiaries_inference_counterexample :
    (extract_subsidiaries completeGamma soupC6 (some "Acme")).map Entity.name =
      ["Alpha", "Beta", "Gamma Corp"] ∧
    extract_subsidiaries completeGamma soupC6 (some "Acme") ≠
      extract_subsidiaries completeErr soupC6 (some "Acme") :=
  ⟨by decide, by decide⟩

/-- Claim C6 (amended): `extract_acquisitions` with a non-empty structured
phase returns exactly the structured entities and attempts no inference
call (its output is independent of the completion oracle);
`extract_subsidiaries` attempts the inference call whenever a company name
is given, even when the structured field is hyperlinked. -/
theorem C6_acquisitions_structured_amended (complete complete' : CompleteOracle)
    (soup : Soup) (company_name : Option String)
    (h : infoboxEntities "acquisit" acqsCellEntities soup ≠ []) :
    extract_acquisitions complete soup company_name =
      infoboxEntities "acquisit" acqsCellEntities soup ∧
    extract_acquisitions complete soup company_name =
      extract_acquisitions complete' soup company_name := by
  have he : ∀ c : CompleteOracle, extract_acquisitions c soup company_name =
      infoboxEntities "acquisit" acqsCellEntities soup := by
    intro c
    simp only [extract_acquisitions]
    rw [if_neg (by simp [h])]
  exact ⟨he complete, (he complete).trans (he complete').symm⟩

/-- Witness for C6: the amended statement applied to a concrete document
with a structured acquisitions row. -/
theorem C6_witness :
    extract_acquisitions completeErr soupC3 none =
      infoboxEntities "acquisit" acqsCellEntities soupC3 ∧
    extract_acquisitions completeErr soupC3 none =
      extract_acquisitions completeGamma soupC3 none :=
  C6_acquisitions_structured_amended completeErr completeGamma soupC3 none (by decide)

/-! ## Claim C7: the no-hyperlink fallback of the structured phase -/

/-- Claim C7, counterexample: the placeholder filtering is not as claimed.
An acquisitions cell whose text is the placeholder `-` still emits an
entity (the acquisitions extractor has no placeholder filter at all), and
a subsidiaries cell whose text is a real em dash emits one too: the
code's placeholder list contains the mojibake sequence `â€”`, not the em
dash. -/
theorem C7_placeholder_counterexample :
    acqsCellEntities cellDashC7 = [⟨"-", none⟩] ∧
    subsCellEntities cellEmDashC7 = [⟨"—", none⟩] ∧
    "-" ∈ nonePlaceholders ∧ "—" ∉ nonePlaceholders :=
  ⟨by decide, by decide, by decide, by decide⟩

/-- Claim C7 (amended): for a cell without hyperlinks, the subsidiaries
extractor emits the trimmed text iff it is non-empty and not in the
code's placeholder list (whose first element is the mojibake `â€”`, not
an em dash); the acquisitions extractor emits it iff it is non-empty,
with no placeholder filter. -/
theorem C7_cell_fallback_amended (cell : Cell) (h : cell.links = []) :
    (subsCellEntities cell =
      if pyStrip cell.text ≠ "" ∧ pyStrip cell.text ∉ nonePlaceholders then
        [⟨pyStrip cell.text, none⟩]
      else []) ∧
    (acqsCellEntities cell =
      if pyStrip cell.text ≠ "" then [⟨pyStrip cell.text, none⟩] else []) := by
  constructor
  · unfold subsCellEntities
    rw [h]
    by_cases h1 : pyStrip cell.text = ""
    · simp [h1]
    · by_cases h2 : pyStrip cell.text ∈ nonePlaceholders
      · simp [h1, h2]
      · simp [h1, h2]
  · unfold acqsCellEntities
    rw [h]
    by_cases h1 : pyStrip cell.text = ""
    · simp [h1]
    · simp [h1]

/-- Witness for C7: the amended fallback rule applied to a link-free cell
with ordinary text. -/
theorem C7_witness :
    (subsCellEntities ⟨[], "Acme Labs"⟩ =
      if pyStrip "Acme Labs" ≠ "" ∧ pyStrip "Acme Labs" ∉ nonePlaceholders then
        [⟨pyStrip "Acme Labs", none⟩]
      else []) ∧
    (acqsCellEntities ⟨[], "Acme Labs"⟩ =
      if pyStrip "Acme Labs" ≠ "" then [⟨pyStrip "Acme Labs", none⟩] else []) :=
  C7_cell_fallback_amended ⟨[], "Acme Labs"⟩ rfl

/-! ## Claim C8: which website rule the resolver applies -/

/-- Claim C8, counterexample: the resolver does not use the matcher's
five-keyword label rule.  For an entity whose gate passes, with a child
page declaring its website under the header `URL` (which the five-keyword
rule matches), the resolver yields no domain, while the claimed rule
would yield `foo.com`. -/
theorem C8_resolver_website_rule_counterexample :
    resolveDomain fetchC8 soupC8 entC8 = none ∧
    (truthyOpt (normalize_wiki_path "https://en.wikipedia.org/wiki/Foo_Co") &&
      (linkMapGet soupC8 (pyLower (pyStrip entC8.name))).any fun href =>
        truthyOpt (normalize_wiki_path href) &&
          (normalize_wiki_path href ==
            normalize_wiki_path "https://en.wikipedia.org/wiki/Foo_Co")) = true ∧
    fetchC8 "https://en.wikipedia.org/wiki/Foo_Co" = some childC8 ∧
    specDeclaredWebsite childC8 = some "http://foo.com" ∧
    get_official_website_from_infobox childC8 = none ∧
    normalize_domain "http://foo.com" = some "foo.com" :=
  ⟨by decide, by decide, rfl, by decide, by decide, by decide⟩

/-- Claim C8 (amended): when the link-validation gate passes, the resolver
fetches the child page and sets the domain from
`get_official_website_from_infobox` — the first row whose header contains
`website` (case-insensitively) and whose cell's first link is
`http`-prefixed — normalized; and that extractor returns nothing from an
infobox none of whose headers contains `website`, regardless of the other
four website-like labels. -/
theorem C8_resolver_official_website_amended (fetch : FetchOracle) (soup : Soup)
    (e : Entity) (w : String) (hw : e.wiki_url = some w) (hwne : w ≠ "")
    (hgate : (truthyOpt (normalize_wiki_path w) &&
      (linkMapGet soup (pyLower (pyStrip e.name))).any fun href =>
        truthyOpt (normalize_wiki_path href) &&
          (normalize_wiki_path href == normalize_wiki_path w)) = true) :
    resolveDomain fetch soup e =
      (match fetch w with
       | none => none
       | some entity_soup =>
         match get_official_website_from_infobox entity_soup with
         | none => none
         | some website => if website = "" then none else normalize_domain website) ∧
    ∀ rows links title text paragraphs,
      (∀ row ∈ rows, ∀ h, row.header = some h → pyIn "website" (pyLower h) = false) →
      get_official_website_from_infobox ⟨some rows, links, title, text, paragraphs⟩ = none := by
  constructor
  · simp only [resolveDomain, hw]
    rw [if_neg hwne, if_pos hgate]
  · intro rows links title text paragraphs hrows
    unfold get_official_website_from_infobox
    dsimp only
    rw [List.findSome?_eq_none_iff]
    intro row hrow
    cases hh : row.header with
    | none => simp
    | some hTxt =>
      simp only [hh]
      rw [hrows row hrow hTxt hh]
      simp

/-- Witness for C8: the amended statement applied to the entity of the C1
fixtures, whose gate passes and whose child page declares a website. -/
theorem C8_witness :
    resolveDomain fetchC1 soupC1 entC1 =
      (match fetchC1 "https://en.wikipedia.org/wiki/Acme_Labs" with
       | none => none
       | some entity_soup =>
         match get_official_website_from_infobox entity_soup with
         | none => none
         | some website => if website = "" then none else normalize_domain website) ∧
    ∀ rows links title text paragraphs,
      (∀ row ∈ rows, ∀ h, row.header = some h → pyIn "website" (pyLower h) = false) →
      get_official_website_from_infobox ⟨some rows, links, title, text, paragraphs⟩ = none :=
  C8_resolver_official_website_amended fetchC1 soupC1 entC1
    "https://en.wikipedia.org/wiki/Acme_Labs" rfl (by decide) (by decide)

/-! ## Claim C9: failure of the keyword collaborator -/

/-- Claim C9, counterexample: a failing keyword-guess collaborator is not
tolerated — `target` propagates the error instead of proceeding to the
no-match outcome. -/
theorem C9_keyword_failure_counterexample :
    target completeErr searchNone fetchNone "acme.com" = .error () ∧
    (Except.error () : Except Unit (Option TargetResult)) ≠ .ok none :=
  ⟨rfl, by simp⟩

/-- Claim C9 (amended): a failure of the completion collaborator in the
top-level `guess_wikipedia_search_keywords` call propagates out of
`target` (the orchestration aborts); only a successful call whose parsed
keyword list is empty leads to the no-match outcome. -/
theorem C9_keyword_failure_amended (complete : CompleteOracle) (search : SearchOracle)
    (fetch : FetchOracle) (company_website : String) :
    (∀ e, complete (guessKeywordsPrompt company_website) = .error e →
      target complete search fetch company_website = .error e) ∧
    (∀ content, complete (guessKeywordsPrompt company_website) = .ok content →
      splitCommaTrim (pyStrip content) = [] →
      target complete search fetch company_website = .ok none) := by
  constructor
  · intro e he
    unfold target guess_wikipedia_search_keywords
    rw [he]
    rfl
  · intro content hc hsplit
    unfold target guess_wikipedia_search_keywords
    rw [hc]
    show targetKeywordLoop complete search fetch company_website
      (splitCommaTrim (pyStrip content)) = Except.ok none
    rw [hsplit]
    rfl

/-- Witness for C9: the amended behavior at concrete oracles — a failing
collaborator aborts `target`; an empty keyword answer yields no-match. -/
theorem C9_witness :
    target completeErr searchNone fetchNone "acme.com" = .error () ∧
    target completeEmpty searchNone fetchNone "acme.com" = .ok none :=
  ⟨(C9_keyword_failure_amended completeErr searchNone fetchNone "acme.com").1 () rfl,
    (C9_keyword_failure_amended completeEmpty searchNone fetchNone "acme.com").2 "" rfl
      (by decide)⟩

end WikiChecker
